import Mathlib

/-!
Verification development for the fastfetch minimal HTTP/1.1 client
(`src/common/networking_linux.c`): request construction, the receive loop
with its post-condition checks, and the gzip content decoder.

External collaborators are modelled as follows.

* `FFstrbuf` (the growable byte buffer of the repository, declared outside
  this module) is modelled from the ResponseBuffer description in the spec: a byte
  list plus an allocated capacity, a free-capacity query that reserves one
  byte for the NUL terminator, and an ensure-free operation with geometric
  growth.
* The zlib inflate engine is an external library; it is modelled as an
  oracle holding the byte sequence the engine emits and an optional error
  code it reports once all those bytes have been handed out.  Each
  `inflate` call copies as much of the remaining oracle output as fits in
  the available output room, returns `Z_BUF_ERROR` while output remains,
  and on completion returns `Z_STREAM_END` (or the error code of the oracle).
* libc primitives (`strcasestr`, `memmem`, `strtoul`, `recv`) are given
  direct functional models; `strcasestr` honours NUL termination of the
  scanned C string, `memmem` scans the full length.
* The C code manipulates `headerEnd` as a pointer into the buffer; it is
  modelled as a byte offset.
-/

namespace FFNet

/-- Bytes of a string literal (all literals used are ASCII). -/
def bytes (s : String) : List UInt8 :=
  s.data.map fun c => UInt8.ofNat c.toNat

/-- C `tolower` restricted to ASCII, as used by `strcasestr` /
`ffStrStartsWithIgnCase`. -/
def toLowerB (b : UInt8) : UInt8 :=
  if 65 ≤ b.toNat ∧ b.toNat ≤ 90 then b + 32 else b

/-- Case-insensitive "pat is a prefix of s" (`ffStrStartsWithIgnCase`,
`strncasecmp` semantics). -/
def ciStartsWith : List UInt8 → List UInt8 → Bool
  | [], _ => true
  | _ :: _, [] => false
  | p :: ps, c :: cs => (toLowerB p = toLowerB c) && ciStartsWith ps cs

/-- First index of a case-insensitive occurrence of `pat` in `hay`
(`strcasestr`; the caller passes the NUL-truncated C string). -/
def findCi (hay pat : List UInt8) : Option Nat :=
  match hay with
  | [] => if pat.isEmpty then some 0 else none
  | _ :: t => if ciStartsWith pat hay then some 0 else (findCi t pat).map (· + 1)

/-- First index of an exact occurrence of `pat` in `hay` (`memmem`). -/
def findSub (hay pat : List UInt8) : Option Nat :=
  match hay with
  | [] => if pat.isEmpty then some 0 else none
  | _ :: t => if pat.isPrefixOf hay then some 0 else (findSub t pat).map (· + 1)

/-- The C string a byte buffer denotes: everything before the first NUL. -/
def cstr (bs : List UInt8) : List UInt8 :=
  bs.takeWhile (fun b => b ≠ 0)

/-- `isspace` bytes skipped by `strtoul`. -/
def isSpaceB (b : UInt8) : Bool :=
  b = 32 || (9 ≤ b.toNat && b.toNat ≤ 13)

/-- Accumulate a decimal digit run. -/
def digitsToNat (n : Nat) : List UInt8 → Nat
  | [] => n
  | b :: rest =>
    if 48 ≤ b.toNat ∧ b.toNat ≤ 57 then digitsToNat (n * 10 + (b.toNat - 48)) rest
    else n

/-- `strtoul(s, NULL, 10)`: skip leading whitespace, then read a decimal
digit run (sign handling is not exercised by any header this client
parses). -/
def strtoul10 (bs : List UInt8) : Nat :=
  digitsToNat 0 (bs.dropWhile isSpaceB)

/-- Split a byte string into lines at `\n`; lines keep their `\r`
(`ffStrbufGetline` semantics as used by the header rewriting loop). -/
def splitLinesGo : List UInt8 → List UInt8 → List (List UInt8)
  | acc, [] => [acc.reverse]
  | acc, b :: rest =>
    if b = 10 then acc.reverse :: splitLinesGo [] rest
    else splitLinesGo (b :: acc) rest

def splitLines (bs : List UInt8) : List (List UInt8) :=
  splitLinesGo [] bs

/-! ## The FFstrbuf model

Modelled from the spec: ResponseBuffer is a "caller-owned growable byte
buffer" supporting "query free capacity, ensure at least N bytes free
(possibly reallocating), append raw bytes", "always null/sentinel-
terminated after any append" (hence one spare byte of capacity), with a
geometric growth policy.  The FFstrbuf implementation itself is not part
of the sources under review. -/

structure Strbuf where
  data : List UInt8
  allocated : Nat
deriving DecidableEq

/-- `ffStrbufGetFree`: spare capacity, keeping one byte for the NUL. -/
def strbufFree (b : Strbuf) : Nat :=
  if b.allocated = 0 then 0 else b.allocated - b.data.length - 1

/-- Double `a` until it reaches `target` (geometric growth); since each
doubling from a positive start adds at least one, `target` steps always
suffice, so the fuel never runs out. -/
def growAllocGo : Nat → Nat → Nat → Nat
  | 0, a, _ => a
  | fuel + 1, a, target => if target ≤ a ∨ a = 0 then a else growAllocGo fuel (2 * a) target

def growAlloc (a target : Nat) : Nat :=
  growAllocGo target a target

/-- Modelled from the spec: `ffStrbufEnsureFree` reallocates (geometric
growth) so that at least `n` bytes plus the NUL slot are spare. -/
def ensureFree (b : Strbuf) (n : Nat) : Strbuf :=
  if n ≤ strbufFree b then b
  else { b with allocated := growAlloc (max b.allocated 2) (b.data.length + n + 1) }

theorem growAllocGo_ge :
    ∀ (fuel a target : Nat), a ≠ 0 → target ≤ fuel + a → target ≤ growAllocGo fuel a target := by
  intro fuel
  induction fuel with
  | zero => intro a target h1 h2; simpa [growAllocGo] using h2
  | succ n ih =>
    intro a target h1 h2
    simp only [growAllocGo]
    split
    · omega
    · exact ih (2 * a) target (by omega) (by omega)

theorem growAlloc_ge (a target : Nat) (h : a ≠ 0) : target ≤ growAlloc a target :=
  growAllocGo_ge target a target h (by omega)

theorem ensureFree_data (b : Strbuf) (n : Nat) : (ensureFree b n).data = b.data := by
  unfold ensureFree; split <;> rfl

theorem ensureFree_free (b : Strbuf) (n : Nat) : n ≤ strbufFree (ensureFree b n) := by
  unfold ensureFree
  split
  · assumption
  · have h1 : b.data.length + n + 1 ≤ growAlloc (max b.allocated 2) (b.data.length + n + 1) :=
      growAlloc_ge _ _ (by omega)
    simp only [strbufFree]
    split
    · omega
    · omega

/-! ## Request construction (`initNetworkingState`, lines 126-143)

Only the request-text construction of `initNetworkingState` is modelled;
address resolution and socket tuning are OS calls without claim-relevant
logic.  Inputs are the C strings the caller passes. -/

/-- The request text `initNetworkingState` builds into `state->command`,
one `ffStrbufAppendS` per step. -/
def initCommand (host path headers : List Char) (compression : Bool) : List Char :=
  let command : List Char := []
  let command := command ++ "GET ".toList
  let command := command ++ path
  let command := command ++ " HTTP/1.1\nHost: ".toList
  let command := command ++ host
  let command := command ++ "\r\n".toList
  let command := command ++ "Connection: close\r\n".toList
  let command := if compression then command ++ "Accept-Encoding: gzip\r\n".toList else command
  let command := command ++ headers
  command ++ "\r\n".toList

/-! ## Gzip decoding (`guessGzipOutputSize`, `decompressGzip`) -/

def M32 : Nat := 4294967296

/-- The little-endian value of the last four bytes (the gzip ISIZE
trailer), as read at lines 276-277. -/
def gzipTrailerLE (data : List UInt8) : Nat :=
  match data.drop (data.length - 4) with
  | [t0, t1, t2, t3] => t0.toNat + t1.toNat * 256 + t2.toNat * 65536 + t3.toNat * 16777216
  | _ => 0

/-- `guessGzipOutputSize` (lines 267-292), with uint32 arithmetic. -/
def guessGzipOutputSize (data : List UInt8) : Nat :=
  if data.length < 10 ∨ data.get? 0 ≠ some 0x1f ∨ data.get? 1 ≠ some 0x8b then 0
  else if 18 < data.length then
    let uncompressedSize := gzipTrailerLE data
    if 0 < uncompressedSize then (uncompressedSize + 64) % M32
    else (data.length * 5) % M32
  else (data.length * 5) % M32

/-- The zlib inflate engine, abstracted: the byte sequence it emits over
the whole stream, and an optional error code it reports once all of
`output` has been handed out (`none` = clean `Z_STREAM_END`). -/
structure GzipOracle where
  output : List UInt8
  err : Option Int
deriving DecidableEq

def zStreamEnd : Int := 1
def zBufError : Int := -5
def zDataError : Int := -3

/-- One `inflate(&zs, Z_FINISH)` call: copy as much of the remaining
oracle output as fits into `availOut` room; report `Z_BUF_ERROR` while
output remains, and on completion `Z_STREAM_END` or the oracle error. -/
def inflateCall (oc : GzipOracle) (pos availOut : Nat) : Nat × Int :=
  let w := min availOut (oc.output.length - pos)
  let res : Int :=
    if pos + w < oc.output.length then zBufError
    else
      match oc.err with
      | none => zStreamEnd
      | some e => e
  (w, res)

/-- The decompression loop of `decompressGzip` (lines 352-376): an
initial `inflate`, then while the result is `Z_BUF_ERROR` (or non-end
with no output room), account the bytes of the previous call, grow the
buffer by half its length, and `inflate` again.  `fuel` bounds the
iteration count; `none` models the loop never terminating. -/
def inflateRun (oc : GzipOracle) : Nat → Strbuf → Nat → Nat → Option (Strbuf × Nat × Nat × Int)
  | 0, dbuf, pos, avail =>
    let wr := inflateCall oc pos avail
    if wr.2 = zBufError ∨ (wr.2 ≠ zStreamEnd ∧ avail - wr.1 = 0) then none
    else some (dbuf, pos, wr.1, wr.2)
  | fuel + 1, dbuf, pos, avail =>
    let wr := inflateCall oc pos avail
    if wr.2 = zBufError ∨ (wr.2 ≠ zStreamEnd ∧ avail - wr.1 = 0) then
      let dbuf1 : Strbuf := { dbuf with data := dbuf.data ++ (oc.output.drop pos).take wr.1 }
      let dbuf2 := ensureFree dbuf1 (dbuf1.data.length / 2)
      inflateRun oc fuel dbuf2 (pos + wr.1) (strbufFree dbuf2)
    else some (dbuf, pos, wr.1, wr.2)

def cePat : List UInt8 := bytes "Content-Encoding:"
def clPat : List UInt8 := bytes "Content-Length:"
def encGzipPat : List UInt8 := bytes "\nContent-Encoding: gzip"
def crlf2 : List UInt8 := bytes "\r\n\r\n"
def http200 : List UInt8 := bytes "HTTP/1.1 200 OK\r\n"

/-- The header rewriting loop of `decompressGzip` (lines 389-411): drop
`Content-Encoding`, rewrite `Content-Length` to `dsize`, stop at the
blank line. -/
def rebuildHeaders (acc : List UInt8) (dsize : Nat) : List (List UInt8) → List UInt8
  | [] => acc
  | line :: rest =>
    if ciStartsWith cePat line then rebuildHeaders acc dsize rest
    else if ciStartsWith clPat line then
      rebuildHeaders (acc ++ bytes "Content-Length: " ++ bytes (toString dsize) ++ bytes "\r\n") dsize rest
    else if line.head? = some 13 then acc ++ bytes "\r\n"
    else rebuildHeaders (acc ++ (line ++ [10])) dsize rest

/-- The initial allocation of the decompression buffer (line 333):
the estimate if positive, else five times the compressed size. -/
def dcInitAlloc (body : List UInt8) : Nat :=
  let estimatedSize := guessGzipOutputSize body
  if 0 < estimatedSize then estimatedSize else (body.length * 5) % M32

/-- `decompressGzip` (lines 295-418).  `headerEnd` is the offset of the
`\r\n\r\n` terminator in `buffer`.  Returns `none` when the growth loop
does not terminate (a modelling artifact of the fuel bound), otherwise
the boolean result of the C function and the resulting buffer. -/
def decompressGzip (buffer : Strbuf) (headerEnd : Nat) (oc : GzipOracle) : Option (Bool × Strbuf) :=
  let headerSize := headerEnd
  let hasGzip := (findCi (cstr (buffer.data.take headerEnd)) encGzipPat).isSome
  if ¬hasGzip then some (true, buffer)
  else
    let compressedSize := buffer.data.length - headerSize - 4
    if compressedSize = 0 then some (true, buffer)
    else if compressedSize < 2 ∨ buffer.data.get? (headerEnd + 4) ≠ some 0x1f
        ∨ buffer.data.get? (headerEnd + 5) ≠ some 0x8b then some (false, buffer)
    else
      let body := buffer.data.drop (headerEnd + 4)
      let decompressedBuffer : Strbuf := { data := [], allocated := dcInitAlloc body }
      match inflateRun oc (oc.output.length + 2) decompressedBuffer 0 (strbufFree decompressedBuffer) with
      | none => none
      | some (dbuf, pos, w, _res) =>
        -- the result code of the last inflate call is not examined here,
        -- mirroring the source: lines 378-417 proceed unconditionally
        let dataT := dbuf.data ++ (oc.output.drop pos).take w
        -- line 383: decompressedBuffer.chars[decompressedSize] = 0
        let dataF := if w < dataT.length then dataT.set w 0 else dataT
        let newHeaders := rebuildHeaders [] w (splitLines (cstr buffer.data))
        some (true, { data := newHeaders ++ dataF, allocated := headerSize + w + 64 })

/-! ## Response reception (`ffNetworkingRecvHttpResponse`, lines 474-597) -/

/-- The Content-Length extraction performed when the header terminator is
first seen (lines 544-546): `strcasestr` over the accumulated C string,
then `strtoul` starting 16 bytes past the start of the match, cast to
uint32.  (When the match sits so close to the end of the string that the
16-byte skip crosses the NUL, the C code reads indeterminate bytes; the
model reads the empty string, i.e. 0.) -/
def declaredLength (bs : List UInt8) : Nat :=
  match findCi (cstr bs) clPat with
  | none => 0
  | some i => strtoul10 ((cstr bs).drop (i + 16)) % M32

/-- The terminal outcomes of `ffNetworkingRecvHttpResponse`, in source
order.  `decompressHang` models the decompression loop never
terminating (no C return value exists for it). -/
inductive RecvError where
  | joinFailed          -- "ffThreadJoin() failed or timeout"
  | requestFailed       -- "ffNetworkingSendHttpRequest() failed"
  | emptyResponse       -- "Empty server response received"
  | noHeaderEnd         -- "No HTTP header end found"
  | contentLengthMismatch -- "Content length mismatch"
  | invalidResponse     -- "Invalid response"
  | decompressFailed    -- "Failed to decompress or invalid format"
  | decompressHang
deriving DecidableEq

/-- The connection-state fields the receiver touches.  `thread` is
whether a backgrounded send is outstanding. -/
structure NetState where
  sockfd : Int
  thread : Bool
  compression : Bool
deriving DecidableEq

structure RecvOutcome where
  error : Option RecvError
  sockfd : Int
  closed : Bool
  thread : Bool
  buffer : Strbuf
  contentLength : Nat
  headerEnd : Option Nat
deriving DecidableEq

/-- The header-boundary handling inside one loop iteration
(lines 538-555): once per response, when `\r\n\r\n` first appears in
the accumulated bytes, record its offset, parse the declared content
length, and, when nonzero, pre-grow the buffer by that many bytes plus
margin. -/
def recvStep (buffer1 : Strbuf) (headerEnd : Option Nat) (contentLength : Nat) :
    Strbuf × Option Nat × Nat :=
  match headerEnd with
  | some i => (buffer1, some i, contentLength)
  | none =>
    match findSub buffer1.data crlf2 with
    | none => (buffer1, none, contentLength)
    | some i =>
      let cl := declaredLength buffer1.data
      ((if 0 < cl then ensureFree buffer1 ((cl + 16) % M32) else buffer1), some i, cl)

/-- The receive loop (lines 516-556).  The network is a queue of chunks
(each `recv` call hands over as much of the front chunk as fits in the
free buffer space; an exhausted queue or empty chunk is a peer close /
error, i.e. `recv` returning ≤ 0).  The loop ends on `recv` ≤ 0 or when
the buffer has no free space.  `fuel` is a structural bound; callers
pass more than the total queued bytes, which one-byte-minimum progress
per iteration makes sufficient. -/
def recvLoop : Nat → List (List UInt8) → Strbuf → Option Nat → Nat → Strbuf × Option Nat × Nat
  | 0, _, buffer, headerEnd, contentLength => (buffer, headerEnd, contentLength)
  | _ + 1, [], buffer, headerEnd, contentLength => (buffer, headerEnd, contentLength)
  | fuel + 1, c :: rest, buffer, headerEnd, contentLength =>
    let received := min (strbufFree buffer) c.length
    if received = 0 then (buffer, headerEnd, contentLength)
    else
      let step := recvStep { buffer with data := buffer.data ++ c.take received } headerEnd contentLength
      if strbufFree step.1 = 0 then step
      else recvLoop fuel (if received < c.length then c.drop received :: rest else rest)
        step.1 step.2.1 step.2.2

/-- `recvLoop` with the fuel `recvHttpResponse` supplies. -/
def recvLoopTop (chunks : List (List UInt8)) (buffer : Strbuf) : Strbuf × Option Nat × Nat :=
  recvLoop ((chunks.map List.length).sum + 1) chunks buffer none 0

/-- The post-loop checks of lines 562-581, in source order. -/
def validateResponse (buffer : Strbuf) (headerEnd : Option Nat) (contentLength : Nat) : Option RecvError :=
  if buffer.data.length = 0 then some .emptyResponse
  else
    match headerEnd with
    | none => some .noHeaderEnd
    | some i =>
      if 0 < contentLength ∧ buffer.data.length % M32 ≠ (contentLength + i + 4) % M32 then
        some .contentLengthMismatch
      else if ¬ (http200.isPrefixOf buffer.data) then some .invalidResponse
      else none

/-- `ffNetworkingRecvHttpResponse` (lines 474-597).  `joinOk` is whether
`ffThreadJoin` on an outstanding backgrounded send succeeds within the
timeout; socket-option calls are performance hints without model
content. -/
def recvHttpResponse (st : NetState) (joinOk : Bool) (chunks : List (List UInt8))
    (buffer : Strbuf) (oc : GzipOracle) : RecvOutcome :=
  if st.thread ∧ ¬joinOk then
    { error := some .joinFailed, sockfd := st.sockfd, closed := false, thread := st.thread,
      buffer := buffer, contentLength := 0, headerEnd := none }
  else if st.sockfd = -1 then
    { error := some .requestFailed, sockfd := -1, closed := false, thread := false,
      buffer := buffer, contentLength := 0, headerEnd := none }
  else
    let r := recvLoopTop chunks buffer
    -- lines 558-560: close the socket unconditionally once the loop ends
    let base : RecvOutcome :=
      { error := none, sockfd := -1, closed := true, thread := false,
        buffer := r.1, contentLength := r.2.2, headerEnd := r.2.1 }
    match validateResponse r.1 r.2.1 r.2.2 with
    | some e => { base with error := some e }
    | none =>
      if st.compression then
        match r.2.1 with
        | none => base   -- unreachable: validateResponse rejects a missing terminator
        | some i =>
          match decompressGzip r.1 i oc with
          | none => { base with error := some .decompressHang }
          | some (false, _) => { base with error := some .decompressFailed }
          | some (true, buffer2) => { base with buffer := buffer2 }
      else base

/-! ## Helper lemmas -/

theorem findSub_bound (hay pat : List UInt8) :
    ∀ i, findSub hay pat = some i → i + pat.length ≤ hay.length := by
  induction hay with
  | nil =>
    intro i h
    simp only [findSub] at h
    split at h
    · next hp =>
      simp only [Option.some.injEq] at h
      subst h
      simp only [List.isEmpty_iff] at hp
      simp [hp]
    · exact absurd h (by simp)
  | cons a t ih =>
    intro i h
    simp only [findSub] at h
    split at h
    · next hp =>
      simp only [Option.some.injEq] at h
      subst h
      have hpp : pat <+: a :: t := List.isPrefixOf_iff_prefix.mp hp
      simpa using hpp.length_le
    · cases hi : findSub t pat with
      | none => rw [hi] at h; simp at h
      | some j =>
        rw [hi] at h
        simp only [Option.map_some', Option.some.injEq] at h
        subst h
        have := ih j hi
        simp only [List.length_cons]
        omega

theorem recvLoop_keep (j c : Nat) :
    ∀ (fuel : Nat) (chunks : List (List UInt8)) (buffer : Strbuf),
      (recvLoop fuel chunks buffer (some j) c).2.1 = some j ∧
      (recvLoop fuel chunks buffer (some j) c).2.2 = c ∧
      ∃ ext, (recvLoop fuel chunks buffer (some j) c).1.data = buffer.data ++ ext := by
  intro fuel
  induction fuel with
  | zero =>
    intro chunks buffer
    exact ⟨rfl, rfl, [], by simp [recvLoop]⟩
  | succ n ih =>
    intro chunks buffer
    match chunks with
    | [] => exact ⟨rfl, rfl, [], by simp [recvLoop]⟩
    | ch :: rest =>
      simp only [recvLoop, recvStep]
      by_cases hr : min (strbufFree buffer) ch.length = 0
      · rw [if_pos hr]
        exact ⟨rfl, rfl, [], by simp⟩
      · rw [if_neg hr]
        by_cases hfree :
            strbufFree { buffer with data := buffer.data ++ ch.take (min (strbufFree buffer) ch.length) } = 0
        · rw [if_pos hfree]
          exact ⟨rfl, rfl, ch.take (min (strbufFree buffer) ch.length), rfl⟩
        · rw [if_neg hfree]
          obtain ⟨h1, h2, ext, h3⟩ := ih
            (if min (strbufFree buffer) ch.length < ch.length then
              ch.drop (min (strbufFree buffer) ch.length) :: rest else rest)
            { buffer with data := buffer.data ++ ch.take (min (strbufFree buffer) ch.length) }
          exact ⟨h1, h2, ch.take (min (strbufFree buffer) ch.length) ++ ext, by rw [h3]; simp⟩

theorem crlf2_length : crlf2.length = 4 := by decide

/-- Where the declared content length of the loop comes from: when the header
terminator is first detected, the whole byte string accumulated so far
(a prefix of the final buffer that extends at least past the terminator,
body bytes included) is scanned by `declaredLength`. -/
theorem recvLoop_detect :
    ∀ (fuel : Nat) (chunks : List (List UInt8)) (buffer b1 : Strbuf) (i cl1 : Nat),
      recvLoop fuel chunks buffer none 0 = (b1, some i, cl1) →
      ∃ m, i + 4 ≤ m ∧ m ≤ b1.data.length ∧
        findSub (b1.data.take m) crlf2 = some i ∧ cl1 = declaredLength (b1.data.take m) := by
  intro fuel
  induction fuel with
  | zero =>
    intro chunks buffer b1 i cl1 h
    simp [recvLoop] at h
  | succ n ih =>
    intro chunks buffer b1 i cl1 h
    match chunks with
    | [] => simp [recvLoop] at h
    | ch :: rest =>
      simp only [recvLoop] at h
      by_cases hr : min (strbufFree buffer) ch.length = 0
      · rw [if_pos hr] at h
        simp at h
      · rw [if_neg hr] at h
        generalize ({ buffer with data := buffer.data ++ ch.take (min (strbufFree buffer) ch.length) } : Strbuf) = B1 at h
        cases hf : findSub B1.data crlf2 with
        | none =>
          rw [show recvStep B1 none 0 = (B1, none, 0) by simp [recvStep, hf]] at h
          by_cases hfree : strbufFree B1 = 0
          · rw [if_pos hfree] at h
            simp at h
          · rw [if_neg hfree] at h
            exact ih _ _ _ _ _ h
        | some jj =>
          have hs1 : (recvStep B1 none 0).2.1 = some jj := by
            simp [recvStep, hf]
          have hs2 : (recvStep B1 none 0).2.2 = declaredLength B1.data := by
            simp [recvStep, hf]
          have hsd : (recvStep B1 none 0).1.data = B1.data := by
            simp only [recvStep, hf]
            split
            · exact ensureFree_data _ _
            · rfl
          have hbnd := findSub_bound _ _ jj hf
          rw [crlf2_length] at hbnd
          by_cases hfree : strbufFree (recvStep B1 none 0).1 = 0
          · rw [if_pos hfree] at h
            have hji : some jj = some i := by rw [← hs1, h]
            have hbd : b1.data = B1.data := by rw [← hsd, h]
            have hcl : cl1 = declaredLength B1.data := by rw [← hs2, h]
            simp only [Option.some.injEq] at hji
            refine ⟨B1.data.length, by omega, by rw [hbd], ?_, ?_⟩
            · rw [hbd, List.take_length, ← hji]
              exact hf
            · rw [hbd, List.take_length]
              exact hcl
          · rw [if_neg hfree] at h
            rw [hs1, hs2] at h
            obtain ⟨k1, k2, ext, k3⟩ := recvLoop_keep jj (declaredLength B1.data) n
              (if min (strbufFree buffer) ch.length < ch.length then
                ch.drop (min (strbufFree buffer) ch.length) :: rest else rest)
              (recvStep B1 none 0).1
            rw [h] at k1 k2 k3
            have k1' : some i = some jj := k1
            have k2' : cl1 = declaredLength B1.data := k2
            have k3' : b1.data = (recvStep B1 none 0).1.data ++ ext := k3
            rw [hsd] at k3'
            simp only [Option.some.injEq] at k1'
            refine ⟨B1.data.length, by omega, by rw [k3']; simp, ?_, ?_⟩
            · rw [k3', List.take_left, k1']
              exact hf
            · rw [k3', List.take_left]
              exact k2'

/-- The decompression loop terminates with `Z_STREAM_END` whenever the
engine reports no error, for any starting output room of at least 2
bytes and fuel beyond the remaining output: every iteration fills all
available room, and after the first fill the grow-by-half-the-length
step keeps at least one byte of room per call. -/
theorem inflateRun_ok (oc : GzipOracle) (he : oc.err = none) :
    ∀ (fuel : Nat) (dbuf : Strbuf) (pos avail : Nat),
      pos ≤ oc.output.length →
      oc.output.length - pos + 1 ≤ fuel →
      1 ≤ avail →
      2 ≤ dbuf.data.length + avail →
      ∃ d p w, inflateRun oc fuel dbuf pos avail = some (d, p, w, zStreamEnd) := by
  intro fuel
  induction fuel with
  | zero =>
    intro dbuf pos avail h1 h2 h3 h4
    omega
  | succ n ih =>
    intro dbuf pos avail h1 h2 h3 h4
    by_cases hc : oc.output.length - pos ≤ avail
    · have hcall : inflateCall oc pos avail = (oc.output.length - pos, zStreamEnd) := by
        simp only [inflateCall, he]
        rw [min_eq_right hc, if_neg (by omega)]
      refine ⟨dbuf, pos, oc.output.length - pos, ?_⟩
      simp only [inflateRun, hcall]
      rw [if_neg (by simp [zStreamEnd, zBufError])]
    · push_neg at hc
      have hw : min avail (oc.output.length - pos) = avail := min_eq_left (by omega)
      have hcall : inflateCall oc pos avail = (avail, zBufError) := by
        simp only [inflateCall, he]
        rw [hw, if_pos (by omega)]
      have hlen1 : ({ dbuf with data := dbuf.data ++ (oc.output.drop pos).take avail } : Strbuf).data.length
          = dbuf.data.length + avail := by
        simp [List.length_take, List.length_drop]
        omega
      have hfree2 := ensureFree_free { dbuf with data := dbuf.data ++ (oc.output.drop pos).take avail }
        (({ dbuf with data := dbuf.data ++ (oc.output.drop pos).take avail } : Strbuf).data.length / 2)
      have hdata2 := ensureFree_data { dbuf with data := dbuf.data ++ (oc.output.drop pos).take avail }
        (({ dbuf with data := dbuf.data ++ (oc.output.drop pos).take avail } : Strbuf).data.length / 2)
      have hlen2 : (ensureFree { dbuf with data := dbuf.data ++ (oc.output.drop pos).take avail }
          (({ dbuf with data := dbuf.data ++ (oc.output.drop pos).take avail } : Strbuf).data.length / 2)).data.length
          = dbuf.data.length + avail := by
        rw [hdata2, hlen1]
      obtain ⟨d, p, w, hres⟩ := ih
        (ensureFree { dbuf with data := dbuf.data ++ (oc.output.drop pos).take avail }
          (({ dbuf with data := dbuf.data ++ (oc.output.drop pos).take avail } : Strbuf).data.length / 2))
        (pos + avail)
        (strbufFree (ensureFree { dbuf with data := dbuf.data ++ (oc.output.drop pos).take avail }
          (({ dbuf with data := dbuf.data ++ (oc.output.drop pos).take avail } : Strbuf).data.length / 2)))
        (by omega) (by omega) (by omega) (by omega)
      refine ⟨d, p, w, ?_⟩
      simp only [inflateRun, hcall]
      rw [if_pos (Or.inl trivial)]
      exact hres

theorem recvHttp_error_of_validate (st : NetState) (joinOk : Bool) (chunks : List (List UInt8))
    (buffer : Strbuf) (oc : GzipOracle) (e : RecvError)
    (hnot : ¬(st.thread ∧ ¬joinOk)) (hsock : st.sockfd ≠ -1)
    (hv : validateResponse (recvLoopTop chunks buffer).1 (recvLoopTop chunks buffer).2.1
      (recvLoopTop chunks buffer).2.2 = some e) :
    (recvHttpResponse st joinOk chunks buffer oc).error = some e := by
  simp only [recvHttpResponse, if_neg hnot, if_neg hsock, hv]

theorem recvHttp_error_validate_none (st : NetState) (joinOk : Bool) (chunks : List (List UInt8))
    (buffer : Strbuf) (oc : GzipOracle)
    (hnot : ¬(st.thread ∧ ¬joinOk)) (hsock : st.sockfd ≠ -1)
    (hv : validateResponse (recvLoopTop chunks buffer).1 (recvLoopTop chunks buffer).2.1
      (recvLoopTop chunks buffer).2.2 = none) :
    (recvHttpResponse st joinOk chunks buffer oc).error = none ∨
    (recvHttpResponse st joinOk chunks buffer oc).error = some .decompressHang ∨
    (recvHttpResponse st joinOk chunks buffer oc).error = some .decompressFailed := by
  simp only [recvHttpResponse, if_neg hnot, if_neg hsock, hv]
  split
  · split
    · left; rfl
    · split
      · right; left; rfl
      · right; right; rfl
      · left; rfl
  · left; rfl

/-! ## Claims -/

/-- C1, counterexample: at host `h`, path `/`, no extra headers, no
compression, the built request is not the byte string the claim
specifies, because the request line is terminated by a bare LF. -/
theorem C1_counterexample :
    initCommand "h".toList "/".toList [] false ≠
      "GET / HTTP/1.1\r\nHost: h\r\nConnection: close\r\n\r\n".toList := by
  decide

/-- C1, amended: for every host, path, extra headers and compression
flag, the request text is exactly `GET ` ++ path ++ ` HTTP/1.1\nHost: `
++ host ++ `\r\n` ++ `Connection: close\r\n` ++ (`Accept-Encoding:
gzip\r\n` if compression is available, else nothing) ++ extra headers ++
`\r\n` — the request line is terminated by a bare `\n`, all other header
lines by `\r\n`. -/
theorem C1_request_text (host path headers : List Char) (compression : Bool) :
    initCommand host path headers compression =
      "GET ".toList ++ path ++ " HTTP/1.1\nHost: ".toList ++ host ++ "\r\n".toList ++
      "Connection: close\r\n".toList ++
      (if compression then "Accept-Encoding: gzip\r\n".toList else []) ++
      headers ++ "\r\n".toList := by
  cases compression <;> simp [initCommand]

/-- C2, code bug: on a response whose gzip body inflates to 60 bytes
through one growth of the 50-byte output buffer (49 bytes in the first
round, 11 in the second), the rewritten header says `Content-Length: 11`
— the byte count of the final inflate round only — while the appended
body is 60 bytes long (with byte 11 clobbered by the stray NUL write). -/
theorem C2_content_length_is_last_round :
    (decompressGzip
        ⟨bytes "HTTP/1.1 200 OK\r\nContent-Encoding: gzip\r\nContent-Length: 10\r\n\r\n" ++
          [0x1f, 0x8b, 0, 0, 0, 0, 0, 0, 0, 0], 300⟩ 59
        ⟨List.replicate 60 65, none⟩).map (fun p => (p.1, p.2.data)) =
      some (true, bytes "HTTP/1.1 200 OK\r\nContent-Length: 11\r\n\r\n" ++
        (List.replicate 60 65).set 11 0) ∧
    ((List.replicate 60 65).set 11 0).length = 60 := by
  constructor
  · decide
  · decide

/-- C3, code bug: on a gzip body whose trailer reads 0 and whose true
output (60 bytes of `B`) exceeds the 5x estimate (50), the growth loop
does succeed, but the final `chars[decompressedSize] = 0` write lands at
offset 11 inside the body, so the appended body is not byte-for-byte the
decompressed content. -/
theorem C3_body_byte_overwritten :
    (decompressGzip
        ⟨bytes "HTTP/1.1 200 OK\r\nContent-Encoding: gzip\r\n\r\n" ++
          [0x1f, 0x8b, 0, 0, 0, 0, 0, 0, 0, 0], 300⟩ 39
        ⟨List.replicate 60 66, none⟩).map (fun p => (p.1, p.2.data)) =
      some (true, bytes "HTTP/1.1 200 OK\r\n\r\n" ++ (List.replicate 60 66).set 11 0) ∧
    (List.replicate 60 66).set 11 0 ≠ List.replicate 60 66 := by
  constructor
  · decide
  · decide

/-- C4, code bug: when the engine stops with `Z_DATA_ERROR` after two
bytes of partial output (room to spare), the result code is never
examined, so receive returns success with the partly decompressed body
and a rewritten Content-Length of 2 — not the DecompressionFailed
error. -/
theorem C4_engine_error_returns_success :
    ((recvHttpResponse ⟨3, false, true⟩ true
        [bytes "HTTP/1.1 200 OK\r\nContent-Encoding: gzip\r\nContent-Length: 10\r\n\r\n" ++
          [0x1f, 0x8b, 0, 0, 0, 0, 0, 0, 0, 0]]
        ⟨[], 300⟩ ⟨[72, 73], some zDataError⟩).error,
      (recvHttpResponse ⟨3, false, true⟩ true
        [bytes "HTTP/1.1 200 OK\r\nContent-Encoding: gzip\r\nContent-Length: 10\r\n\r\n" ++
          [0x1f, 0x8b, 0, 0, 0, 0, 0, 0, 0, 0]]
        ⟨[], 300⟩ ⟨[72, 73], some zDataError⟩).buffer.data) =
      (none, bytes "HTTP/1.1 200 OK\r\nContent-Length: 2\r\n\r\n" ++ [72, 73]) := by
  decide

/-- C5, counterexample: when a backgrounded send is outstanding and the
join fails, receive returns the join error with the socket left open
and its handle unchanged (5, not -1). -/
theorem C5_counterexample :
    ((recvHttpResponse ⟨5, true, false⟩ false [[65]] ⟨[], 300⟩ ⟨[], none⟩).error,
     (recvHttpResponse ⟨5, true, false⟩ false [[65]] ⟨[], 300⟩ ⟨[], none⟩).sockfd,
     (recvHttpResponse ⟨5, true, false⟩ false [[65]] ⟨[], 300⟩ ⟨[], none⟩).closed) =
    (some .joinFailed, 5, false) := by
  decide

/-- C5, amended: on every exit path of receive that gets past joining a
backgrounded send with a valid socket — success or any terminal error —
the socket is closed and the handle set to -1 before returning; the
join-failure path returns with the socket untouched, and the
invalid-socket path has no socket to close. -/
theorem C5_socket_closed (st : NetState) (joinOk : Bool) (chunks : List (List UInt8))
    (buffer : Strbuf) (oc : GzipOracle)
    (hjoin : st.thread = true → joinOk = true) (hsock : st.sockfd ≠ -1) :
    (recvHttpResponse st joinOk chunks buffer oc).closed = true ∧
    (recvHttpResponse st joinOk chunks buffer oc).sockfd = -1 := by
  have hnot : ¬(st.thread ∧ ¬joinOk) := fun h => h.2 (hjoin h.1)
  constructor <;>
  · simp only [recvHttpResponse, if_neg hnot, if_neg hsock]
    split
    · rfl
    · split
      · split
        · rfl
        · split
          · rfl
          · rfl
          · rfl
      · rfl

/-- C5, witness of the amended theorem at a concrete input. -/
theorem C5_witness :
    (recvHttpResponse ⟨3, false, false⟩ true [[65]] ⟨[], 300⟩ ⟨[], none⟩).closed = true ∧
    (recvHttpResponse ⟨3, false, false⟩ true [[65]] ⟨[], 300⟩ ⟨[], none⟩).sockfd = -1 :=
  C5_socket_closed ⟨3, false, false⟩ true [[65]] ⟨[], 300⟩ ⟨[], none⟩
    (fun _ => rfl) (by decide)

/-- C6, counterexample: a response declaring `Content-Length: 0` whose
total length (42) differs from header length (34) + declared body (0) +
terminator (4), i.e. four trailing junk bytes, is returned as success,
not as a ContentLengthMismatch. -/
theorem C6_counterexample :
    ((recvHttpResponse ⟨3, false, false⟩ true
        [bytes "HTTP/1.1 200 OK\r\nContent-Length: 0\r\n\r\nJUNK"] ⟨[], 300⟩ ⟨[], none⟩).error,
     (recvLoopTop [bytes "HTTP/1.1 200 OK\r\nContent-Length: 0\r\n\r\nJUNK"] ⟨[], 300⟩).2.2,
     (recvLoopTop [bytes "HTTP/1.1 200 OK\r\nContent-Length: 0\r\n\r\nJUNK"] ⟨[], 300⟩).2.1,
     (recvLoopTop [bytes "HTTP/1.1 200 OK\r\nContent-Length: 0\r\n\r\nJUNK"] ⟨[], 300⟩).1.data.length) =
    (none, 0, some 34, 42) := by
  decide

/-- C6, amended: the length check applies exactly when the parsed
declared length is nonzero: then any total differing from header length
+ declared length + 4 yields ContentLengthMismatch; a declared (or
defaulted) length of zero is treated as no declaration and the check is
skipped, so ContentLengthMismatch is never returned for it. -/
theorem C6_mismatch_checked_when_nonzero (st : NetState) (joinOk : Bool)
    (chunks : List (List UInt8)) (buffer b1 : Strbuf) (i cl1 : Nat) (oc : GzipOracle)
    (hjoin : st.thread = true → joinOk = true) (hsock : st.sockfd ≠ -1)
    (hloop : recvLoopTop chunks buffer = (b1, some i, cl1)) :
    (0 < cl1 → b1.data.length % M32 ≠ (cl1 + i + 4) % M32 →
      (recvHttpResponse st joinOk chunks buffer oc).error = some .contentLengthMismatch) ∧
    (cl1 = 0 → (recvHttpResponse st joinOk chunks buffer oc).error ≠ some .contentLengthMismatch) := by
  have hnot : ¬(st.thread ∧ ¬joinOk) := fun h => h.2 (hjoin h.1)
  have hne : b1.data.length ≠ 0 := by
    obtain ⟨m, hm1, hm2, _, _⟩ := recvLoop_detect _ _ _ _ _ _ hloop
    omega
  constructor
  · intro hcl hmis
    apply recvHttp_error_of_validate _ _ _ _ _ _ hnot hsock
    rw [hloop]
    show validateResponse b1 (some i) cl1 = some .contentLengthMismatch
    simp only [validateResponse, if_neg hne]
    rw [if_pos ⟨hcl, hmis⟩]
  · intro hcl0
    have hval : validateResponse b1 (some i) cl1 =
        (if ¬(http200.isPrefixOf b1.data) then some .invalidResponse else none) := by
      simp only [validateResponse, if_neg hne]
      rw [if_neg (by omega)]
    by_cases hp : http200.isPrefixOf b1.data
    · have hv0 : validateResponse b1 (some i) cl1 = none := by rw [hval, if_neg (by simp [hp])]
      have := recvHttp_error_validate_none st joinOk chunks buffer oc hnot hsock
        (by rw [hloop]; exact hv0)
      rcases this with h | h | h <;> simp [h]
    · have hv1 : validateResponse b1 (some i) cl1 = some .invalidResponse := by
        rw [hval, if_pos (by simp [hp])]
      have := recvHttp_error_of_validate st joinOk chunks buffer oc _ hnot hsock
        (by rw [hloop]; exact hv1)
      simp [this]

/-- C6, witness of the amended theorem: a declared length of 5 against a
2-byte body yields the mismatch error. -/
theorem C6_witness :
    (recvHttpResponse ⟨3, false, false⟩ true
      [bytes "HTTP/1.1 200 OK\r\nContent-Length: 5\r\n\r\nHI"] ⟨[], 300⟩ ⟨[], none⟩).error =
      some .contentLengthMismatch :=
  (C6_mismatch_checked_when_nonzero ⟨3, false, false⟩ true
    [bytes "HTTP/1.1 200 OK\r\nContent-Length: 5\r\n\r\nHI"] ⟨[], 300⟩
    ⟨bytes "HTTP/1.1 200 OK\r\nContent-Length: 5\r\n\r\nHI", 300⟩ 34 5 ⟨[], none⟩
    (fun _ => rfl) (by decide) (by decide)).1 (by decide) (by decide)

/-- C7: the post-conditions are checked in the fixed order empty buffer,
missing header terminator, content-length mismatch, status line, each
yielding its own distinct error, any of which receive passes to the
caller; and any response passing the earlier checks whose bytes do not
begin with the exact literal `HTTP/1.1 200 OK\r\n` is rejected as
InvalidResponse. -/
theorem C7_check_order_and_status_line :
    (∀ (b : Strbuf) (he : Option Nat) (cl : Nat), b.data.length = 0 →
        validateResponse b he cl = some .emptyResponse) ∧
    (∀ (b : Strbuf) (cl : Nat), b.data.length ≠ 0 →
        validateResponse b none cl = some .noHeaderEnd) ∧
    (∀ (b : Strbuf) (i cl : Nat), b.data.length ≠ 0 → 0 < cl →
        b.data.length % M32 ≠ (cl + i + 4) % M32 →
        validateResponse b (some i) cl = some .contentLengthMismatch) ∧
    (∀ (b : Strbuf) (i cl : Nat), b.data.length ≠ 0 →
        (cl = 0 ∨ b.data.length % M32 = (cl + i + 4) % M32) →
        http200.isPrefixOf b.data = false →
        validateResponse b (some i) cl = some .invalidResponse) ∧
    (∀ (st : NetState) (joinOk : Bool) (chunks : List (List UInt8)) (buffer : Strbuf)
        (oc : GzipOracle) (e : RecvError),
        (st.thread = true → joinOk = true) → st.sockfd ≠ -1 →
        validateResponse (recvLoopTop chunks buffer).1 (recvLoopTop chunks buffer).2.1
          (recvLoopTop chunks buffer).2.2 = some e →
        (recvHttpResponse st joinOk chunks buffer oc).error = some e) := by
  refine ⟨?_, ?_, ?_, ?_, ?_⟩
  · intro b he cl h0
    simp [validateResponse, h0]
  · intro b cl h0
    simp [validateResponse, h0]
  · intro b i cl h0 hcl hmis
    simp only [validateResponse, if_neg h0]
    rw [if_pos ⟨hcl, hmis⟩]
  · intro b i cl h0 hor hp
    simp only [validateResponse, if_neg h0]
    rw [if_neg (by rintro ⟨h1, h2⟩; rcases hor with h | h; omega; exact h2 h),
      if_pos (by simp [hp])]
  · intro st joinOk chunks buffer oc e hjoin hsock hv
    exact recvHttp_error_of_validate st joinOk chunks buffer oc e
      (fun h => h.2 (hjoin h.1)) hsock hv

/-- C7, witness: one concrete response per check — empty, no terminator,
mismatched declared length, and an HTTP/1.0 status line rejected as
InvalidResponse; plus receive surfacing the no-terminator error. -/
theorem C7_witness :
    validateResponse ⟨[], 0⟩ none 0 = some .emptyResponse ∧
    validateResponse ⟨[65], 2⟩ none 0 = some .noHeaderEnd ∧
    validateResponse ⟨bytes "HTTP/1.1 200 OK\r\n\r\n", 20⟩ (some 15) 7 =
      some .contentLengthMismatch ∧
    validateResponse ⟨bytes "HTTP/1.0 200 OK\r\n\r\nab", 22⟩ (some 15) 2 =
      some .invalidResponse ∧
    (recvHttpResponse ⟨3, false, false⟩ true [bytes "HELLO"] ⟨[], 300⟩ ⟨[], none⟩).error =
      some .noHeaderEnd :=
  ⟨C7_check_order_and_status_line.1 ⟨[], 0⟩ none 0 rfl,
   C7_check_order_and_status_line.2.1 ⟨[65], 2⟩ 0 (by decide),
   C7_check_order_and_status_line.2.2.1 ⟨bytes "HTTP/1.1 200 OK\r\n\r\n", 20⟩ 15 7
     (by decide) (by decide) (by decide),
   C7_check_order_and_status_line.2.2.2.1 ⟨bytes "HTTP/1.0 200 OK\r\n\r\nab", 22⟩ 15 2
     (by decide) (Or.inr (by decide)) (by decide),
   C7_check_order_and_status_line.2.2.2.2 ⟨3, false, false⟩ true [bytes "HELLO"] ⟨[], 300⟩
     ⟨[], none⟩ .noHeaderEnd (fun _ => rfl) (by decide) (by decide)⟩

/-- C8, counterexample, refuting both halves of the claim.  Estimate
formula: a 12-byte body with valid magic and nonzero trailer (value
16777216) gets the 5x-size estimate (60), not the trailer value plus
any margin — the trailer is only consulted for bodies longer than 18
bytes.  Sizing-hint half: a 20-byte body whose trailer 0xFFFFFFC2
wraps the estimate to (4294967234 + 64) mod 2^32 = 2, a 2-byte output
buffer on which the growth loop never progresses — the free space is
0 after the single byte the first round can write, and growing by half
of a length-1 buffer requests zero bytes, so every further inflate
call returns Z_BUF_ERROR with nothing written: an infinite loop in the
C code, `none` in the fuel model — hence a wrong estimate does cause
an error-free 3-byte decompression to fail, and receive never returns
(modelled as the decompressHang outcome). -/
theorem C8_counterexample :
    (gzipTrailerLE ([0x1f, 0x8b, 0, 0, 0, 0, 0, 0, 0, 0, 0, 1] : List UInt8) ≠ 0 ∧
     guessGzipOutputSize ([0x1f, 0x8b, 0, 0, 0, 0, 0, 0, 0, 0, 0, 1] : List UInt8) <
       gzipTrailerLE ([0x1f, 0x8b, 0, 0, 0, 0, 0, 0, 0, 0, 0, 1] : List UInt8) ∧
     guessGzipOutputSize ([0x1f, 0x8b, 0, 0, 0, 0, 0, 0, 0, 0, 0, 1] : List UInt8) =
       5 * ([0x1f, 0x8b, 0, 0, 0, 0, 0, 0, 0, 0, 0, 1] : List UInt8).length) ∧
    (gzipTrailerLE
       ([0x1f, 0x8b, 0, 0, 0, 0, 0, 0, 0, 0, 0, 0, 0, 0, 0, 0, 0xC2, 0xFF, 0xFF, 0xFF] : List UInt8)
       = 4294967234 ∧
     guessGzipOutputSize
       ([0x1f, 0x8b, 0, 0, 0, 0, 0, 0, 0, 0, 0, 0, 0, 0, 0, 0, 0xC2, 0xFF, 0xFF, 0xFF] : List UInt8)
       = 2 ∧
     decompressGzip
       ⟨bytes "HTTP/1.1 200 OK\r\nContent-Encoding: gzip\r\n\r\n" ++
         [0x1f, 0x8b, 0, 0, 0, 0, 0, 0, 0, 0, 0, 0, 0, 0, 0, 0, 0xC2, 0xFF, 0xFF, 0xFF], 300⟩ 39
       ⟨[65, 66, 67], none⟩ = none ∧
     (recvHttpResponse ⟨3, false, true⟩ true
       [bytes "HTTP/1.1 200 OK\r\nContent-Encoding: gzip\r\n\r\n" ++
         [0x1f, 0x8b, 0, 0, 0, 0, 0, 0, 0, 0, 0, 0, 0, 0, 0, 0, 0xC2, 0xFF, 0xFF, 0xFF]]
       ⟨[], 300⟩ ⟨[65, 66, 67], none⟩).error = some .decompressHang) := by
  constructor
  · decide
  · decide

/-- C8, amended: the estimate is the 32-bit little-endian trailer value
plus 64 (mod 2^32) only when the body is longer than 18 bytes with
valid magic and a nonzero trailer; it is 5 times the compressed size
(mod 2^32) for valid-magic bodies of 10 to 18 bytes or zero trailers,
and 0 for shorter or magic-less bodies (the decoder then allocates 5
times the compressed size).  And the estimate is not purely a harmless
hint: whenever the engine reports no error, decompression succeeds for
every body reaching it whose initial allocation is at least 3 bytes —
but an estimate wrapped down to 2 bytes or fewer (see the
counterexample) starves the growth loop forever, so a wrong estimate
can make decompression fail to terminate. -/
theorem C8_estimate_hint :
    (∀ d : List UInt8, ¬(d.length < 10 ∨ d.get? 0 ≠ some 0x1f ∨ d.get? 1 ≠ some 0x8b) →
        18 < d.length → 0 < gzipTrailerLE d →
        guessGzipOutputSize d = (gzipTrailerLE d + 64) % M32) ∧
    (∀ d : List UInt8, ¬(d.length < 10 ∨ d.get? 0 ≠ some 0x1f ∨ d.get? 1 ≠ some 0x8b) →
        (d.length ≤ 18 ∨ gzipTrailerLE d = 0) →
        guessGzipOutputSize d = (d.length * 5) % M32) ∧
    (∀ d : List UInt8, (d.length < 10 ∨ d.get? 0 ≠ some 0x1f ∨ d.get? 1 ≠ some 0x8b) →
        guessGzipOutputSize d = 0) ∧
    (∀ (buffer : Strbuf) (headerEnd : Nat) (oc : GzipOracle),
        oc.err = none →
        (findCi (cstr (buffer.data.take headerEnd)) encGzipPat).isSome = true →
        buffer.data.get? (headerEnd + 4) = some 0x1f →
        buffer.data.get? (headerEnd + 5) = some 0x8b →
        2 ≤ buffer.data.length - headerEnd - 4 →
        3 ≤ dcInitAlloc (buffer.data.drop (headerEnd + 4)) →
        ∃ b2, decompressGzip buffer headerEnd oc = some (true, b2)) := by
  refine ⟨?_, ?_, ?_, ?_⟩
  · intro d hval hlen htr
    simp only [guessGzipOutputSize]
    rw [if_neg hval, if_pos hlen, if_pos htr]
  · intro d hval hor
    simp only [guessGzipOutputSize]
    rw [if_neg hval]
    rcases hor with h | h
    · rw [if_neg (by omega)]
    · by_cases hl : 18 < d.length
      · rw [if_pos hl, if_neg (by omega)]
      · rw [if_neg hl]
  · intro d h
    simp only [guessGzipOutputSize]
    rw [if_pos h]
  · intro buffer headerEnd oc herr hgz h1f h8b hcs halloc
    have hfree : strbufFree ⟨[], dcInitAlloc (buffer.data.drop (headerEnd + 4))⟩ =
        dcInitAlloc (buffer.data.drop (headerEnd + 4)) - 1 := by
      simp only [strbufFree]
      rw [if_neg (by omega)]
      simp
    obtain ⟨d, p, w, hrun⟩ := inflateRun_ok oc herr (oc.output.length + 2)
      ⟨[], dcInitAlloc (buffer.data.drop (headerEnd + 4))⟩ 0
      (strbufFree ⟨[], dcInitAlloc (buffer.data.drop (headerEnd + 4))⟩)
      (by omega) (by omega) (by rw [hfree]; omega) (by rw [hfree]; simp; omega)
    simp only [decompressGzip]
    rw [if_neg (fun hcon => hcon hgz)]
    rw [if_neg (by omega : ¬(buffer.data.length - headerEnd - 4 = 0))]
    rw [if_neg (by
      push_neg
      exact ⟨by omega, h1f, h8b⟩)]
    simp only [hrun]
    exact ⟨_, rfl⟩

/-- C8, witness: each case of the amended estimate formula at a concrete
body, and a successful decompression with a deliberately wrong (too
small) estimate. -/
theorem C8_witness :
    guessGzipOutputSize
        ([0x1f, 0x8b, 0, 0, 0, 0, 0, 0, 0, 0, 0, 0, 0, 0, 0, 0, 1, 0, 0, 0] : List UInt8) =
      (gzipTrailerLE
        ([0x1f, 0x8b, 0, 0, 0, 0, 0, 0, 0, 0, 0, 0, 0, 0, 0, 0, 1, 0, 0, 0] : List UInt8) + 64) % M32 ∧
    guessGzipOutputSize ([0x1f, 0x8b, 0, 0, 0, 0, 0, 0, 0, 0] : List UInt8) =
      (([0x1f, 0x8b, 0, 0, 0, 0, 0, 0, 0, 0] : List UInt8).length * 5) % M32 ∧
    guessGzipOutputSize ([0x1f] : List UInt8) = 0 ∧
    ∃ b2, decompressGzip
        ⟨bytes "HTTP/1.1 200 OK\r\nContent-Encoding: gzip\r\n\r\n" ++
          [0x1f, 0x8b, 1, 2, 3, 4, 5, 6, 7, 8], 300⟩ 39
        ⟨bytes "hello world, this text is longer than the fifty byte estimate of the decoder", none⟩ =
      some (true, b2) :=
  ⟨C8_estimate_hint.1 _ (by decide) (by decide) (by decide),
   C8_estimate_hint.2.1 _ (by decide) (Or.inl (by decide)),
   C8_estimate_hint.2.2.1 _ (by decide),
   C8_estimate_hint.2.2.2 _ 39 _ rfl (by decide) (by decide) (by decide)
     (by decide) (by decide)⟩

/-- C9: the declared content length receive works with is parsed, at the
iteration where the header terminator is first seen, from the first
case-insensitive occurrence of `Content-Length:` anywhere in the bytes
accumulated so far — a prefix of the final buffer reaching at least 4
bytes past the terminator offset, so body bytes received in the same
read are scanned too — with the numeric parse starting 16 bytes past
the start of the match (inside `declaredLength`); that same value is the
contentLength receive carries into its mismatch check and pre-grow. -/
theorem C9_declared_length_source (chunks : List (List UInt8)) (buffer b1 : Strbuf)
    (i cl1 : Nat) (st : NetState) (joinOk : Bool) (oc : GzipOracle)
    (hloop : recvLoopTop chunks buffer = (b1, some i, cl1))
    (hjoin : st.thread = true → joinOk = true) (hsock : st.sockfd ≠ -1) :
    (∃ m, i + 4 ≤ m ∧ m ≤ b1.data.length ∧
      findSub (b1.data.take m) crlf2 = some i ∧ cl1 = declaredLength (b1.data.take m)) ∧
    (recvHttpResponse st joinOk chunks buffer oc).contentLength = cl1 := by
  have hnot : ¬(st.thread ∧ ¬joinOk) := fun h => h.2 (hjoin h.1)
  refine ⟨recvLoop_detect _ _ _ _ _ _ hloop, ?_⟩
  simp only [recvHttpResponse, if_neg hnot, if_neg hsock, hloop]
  split
  · rfl
  · split
    · split
      · rfl
      · rfl
      · rfl
    · rfl

/-- C9, witness: a response whose only `Content-Length:` string sits in
the body after the terminator; the parsed value 9 comes from it and is
the contentLength receive reports. -/
theorem C9_witness :
    (∃ m, 21 + 4 ≤ m ∧
      m ≤ (⟨bytes "HTTP/1.1 200 OK\r\nX: 1\r\n\r\nContent-Length: 9", 300⟩ : Strbuf).data.length ∧
      findSub ((⟨bytes "HTTP/1.1 200 OK\r\nX: 1\r\n\r\nContent-Length: 9", 300⟩ : Strbuf).data.take m)
        crlf2 = some 21 ∧
      9 = declaredLength
        ((⟨bytes "HTTP/1.1 200 OK\r\nX: 1\r\n\r\nContent-Length: 9", 300⟩ : Strbuf).data.take m)) ∧
    (recvHttpResponse ⟨3, false, false⟩ true
      [bytes "HTTP/1.1 200 OK\r\nX: 1\r\n\r\nContent-Length: 9"] ⟨[], 300⟩ ⟨[], none⟩).contentLength
      = 9 :=
  C9_declared_length_source [bytes "HTTP/1.1 200 OK\r\nX: 1\r\n\r\nContent-Length: 9"] ⟨[], 300⟩
    ⟨bytes "HTTP/1.1 200 OK\r\nX: 1\r\n\r\nContent-Length: 9", 300⟩ 21 9 ⟨3, false, false⟩ true
    ⟨[], none⟩ (by decide) (fun _ => rfl) (by decide)

/-- C10: a response whose headers carry the gzip marker but whose body
is empty (buffer ends exactly 4 bytes after the terminator offset) is
returned unchanged with success — no InvalidCompressedFormat error, and
the Content-Encoding header still in place. -/
theorem C10_empty_body_skip (buffer : Strbuf) (headerEnd : Nat) (oc : GzipOracle)
    (hgz : (findCi (cstr (buffer.data.take headerEnd)) encGzipPat).isSome = true)
    (hlen : buffer.data.length = headerEnd + 4) :
    decompressGzip buffer headerEnd oc = some (true, buffer) := by
  simp only [decompressGzip]
  rw [if_neg (fun hcon => hcon hgz)]
  rw [if_pos (by omega : buffer.data.length - headerEnd - 4 = 0)]

/-- C10, witness at a concrete gzip-marked, empty-body response. -/
theorem C10_witness :
    decompressGzip ⟨bytes "HTTP/1.1 200 OK\r\nContent-Encoding: gzip\r\n\r\n", 100⟩ 39 ⟨[], none⟩ =
      some (true, ⟨bytes "HTTP/1.1 200 OK\r\nContent-Encoding: gzip\r\n\r\n", 100⟩) :=
  C10_empty_body_skip ⟨bytes "HTTP/1.1 200 OK\r\nContent-Encoding: gzip\r\n\r\n", 100⟩ 39
    ⟨[], none⟩ (by decide) (by decide)

end FFNet
